import Mathlib

/-!
Verification of the Legislative-Calculator engine.

Shallow embedding of `src/app.py` and `src/country_manager.py`.
Python dicts are modelled as insertion-ordered association lists
`List (String × ℚ)`; Python floats are modelled as rationals, so the
arithmetic identities asserted by the spec (e.g. `0.25 * 0.7 = 0.175`)
are exact.  Fallible operations return `Option`.
-/

namespace LegCalc

/-- Python `d.get(k)` / `k in d` on an insertion-ordered dict. -/
def lookupFactor (m : List (String × ℚ)) (k : String) : Option ℚ :=
  (m.find? (fun p => p.1 == k)).map Prod.snd

/-- Python `d[k] = v` when `k` is already a key: in-place value update,
insertion order preserved (`country_manager.py` lines 96-101). -/
def setEntry (m : List (String × ℚ)) (k : String) (v : ℚ) : List (String × ℚ) :=
  m.map (fun p => if p.1 = k then (k, v) else p)

/-- One row of the per-factor breakdown
(`app.py` lines 52-56, `country_manager.py` lines 138-142). -/
structure BreakdownEntry where
  raw_score : ℚ
  weight : ℚ
  weighted_score : ℚ
deriving Repr, DecidableEq

/-- Normalized per-country descriptor: the two fields of a
`political_systems` record that drive scoring
(`country_manager.py` lines 48-66). -/
structure CountrySystem where
  legislature_type : String
  system_type : String
deriving Repr, DecidableEq

/-- The baseline weight map shared by both calculators
(`app.py` lines 13-22, `country_manager.py` lines 84-93). -/
def baselineWeights (governing_party_weight : ℚ) : List (String × ℚ) :=
  [("governing_party_support", governing_party_weight),
   ("opposition_support", 0.15),
   ("public_opinion", 0.10),
   ("committee_approval", 0.20),
   ("fiscal_impact", 0.10),
   ("urgency_factor", 0.05),
   ("previous_similar_bills", 0.05),
   ("media_coverage", 0.05)]

/-- `LegislativeSystem.__init__` weight construction (`app.py` lines 10-30):
baseline map, then for bicameral systems the two chamber weights are added
and every other weight is multiplied by 0.7. -/
def legislativeSystemWeights (is_bicameral : Bool) (governing_party_weight : ℚ) :
    List (String × ℚ) :=
  let weights := baselineWeights governing_party_weight
  if is_bicameral then
    (weights ++ [("upper_house_support", 0.15), ("lower_house_support", 0.15)]).map
      (fun (p : String × ℚ) =>
        if p.1 = "upper_house_support" ∨ p.1 = "lower_house_support" then p
        else (p.1, p.2 * 0.7))
  else
    weights

/-- `CountryDataManager.calculate_base_weights`, body after the registry
lookup succeeded (`country_manager.py` lines 84-112): baseline map,
system-type override, then bicameral redistribution. -/
def baseWeightsOf (cs : CountrySystem) : List (String × ℚ) :=
  let weights := baselineWeights 0.30
  let weights :=
    if cs.system_type = "presidential" then
      setEntry (setEntry weights "governing_party_support" 0.25) "opposition_support" 0.25
    else if cs.system_type = "monarchy" then
      setEntry (setEntry weights "governing_party_support" 0.25) "public_opinion" 0.15
    else weights
  if cs.legislature_type = "bicameral" then
    (weights.map (fun p => (p.1, p.2 * 0.7))) ++
      [("upper_house_support", 0.15), ("lower_house_support", 0.15)]
  else
    weights

/-- Registry lookup `political_systems.get(country_name, None)`
(`country_manager.py` lines 74-76). -/
def get_country_system (registry : List (String × CountrySystem)) (country : String) :
    Option CountrySystem :=
  (registry.find? (fun p => p.1 == country)).map Prod.snd

/-- `CountryDataManager.calculate_base_weights` (`country_manager.py`
lines 78-112); `None` when the country is not in the registry. -/
def calculate_base_weights (registry : List (String × CountrySystem)) (country : String) :
    Option (List (String × ℚ)) :=
  (get_country_system registry country).map baseWeightsOf

/-- The shared scoring loop (`app.py` lines 45-56, `country_manager.py`
lines 131-142): iterate the weight map in order, and for each factor also
present in the score map accumulate `score * weight` and record a
breakdown entry. -/
def scoreLoop (weights factors : List (String × ℚ)) :
    ℚ × List (String × BreakdownEntry) :=
  weights.foldl
    (fun acc p =>
      match lookupFactor factors p.1 with
      | some s => (acc.1 + s * p.2, acc.2 ++ [(p.1, ⟨s, p.2, s * p.2⟩)])
      | none => acc)
    (0, [])

/-- `LegislativeCalculator.calculate_probability` given the weight map of the
selected country (`app.py` lines 43-59): weighted sum, then clamp to [0,1].
No penalty rules are present in this variant. -/
def flat_calculate_probability (weights factors : List (String × ℚ)) :
    ℚ × List (String × BreakdownEntry) :=
  let r := scoreLoop weights factors
  (max 0 (min 1 r.1), r.2)

/-- `LegislativeCalculatorEnhanced.calculate_probability`
(`country_manager.py` lines 122-150).  Returns `none` for the
`(None, None)` pair of the Python code.  The second `none` branch mirrors the
`get_country_system` call on line 128; it is unreachable because
`calculate_base_weights` succeeds on exactly the same lookups. -/
def calculate_probability (registry : List (String × CountrySystem))
    (country : String) (factors : List (String × ℚ)) :
    Option (ℚ × List (String × BreakdownEntry)) :=
  match calculate_base_weights registry country with
  | none => none
  | some base_weights =>
    match get_country_system registry country with
    | none => none
    | some country_system =>
      let r := scoreLoop base_weights factors
      let total_score :=
        if country_system.system_type = "monarchy" ∧
            (lookupFactor factors "governing_party_support").getD 0 < 0.3 then
          r.1 * 0.5
        else r.1
      some (max 0 (min 1 total_score), r.2)

/-- Executable prefix test on character lists, used to model the Python
substring operator `in`. -/
def isPrefOf : List Char → List Char → Bool
  | [], _ => true
  | _ :: _, [] => false
  | a :: as, b :: bs => a == b && isPrefOf as bs

/-- Executable substring test on character lists. -/
def containsSub (needle : List Char) : List Char → Bool
  | [] => isPrefOf needle []
  | c :: t => isPrefOf needle (c :: t) || containsSub needle t

/-- The Python test `needle in hay` on strings. -/
def pyIn (needle hay : String) : Bool :=
  containsSub needle.data hay.data

/-- Abstract (non-executable) substring relation used to state what
classification means independently of the search algorithm. -/
def HasSub (needle hay : List Char) : Prop :=
  ∃ p q, hay = p ++ needle ++ q

/-- Legislature-type classification (`country_manager.py` lines 48-55):
lower-case the `legislative_branch.structure` text (absent field defaults
to the empty string) and match substrings, bicameral first. -/
def classify_legislature_type (structure_text : Option String) : String :=
  let legislative_desc := (structure_text.getD "").toLower
  if pyIn "bicameral" legislative_desc then "bicameral"
  else if pyIn "unicameral" legislative_desc then "unicameral"
  else "unknown"

/-- System-type classification (`country_manager.py` lines 57-66):
lower-case the `government_type` text (absent field defaults to the empty
string) and match substrings in priority order. -/
def classify_system_type (government_type : Option String) : String :=
  let gov_type := (government_type.getD "").toLower
  if pyIn "parliamentary" gov_type then "parliamentary"
  else if pyIn "presidential" gov_type then "presidential"
  else if pyIn "monarchy" gov_type then "monarchy"
  else "other"

/-- `LegislativeCalculator.get_interpretation` (`app.py` lines 61-71). -/
def get_interpretation (probability : ℚ) : String :=
  if probability ≥ 0.8 then "Very High Probability of Passage"
  else if probability ≥ 0.6 then "High Probability of Passage"
  else if probability ≥ 0.4 then "Moderate Probability of Passage"
  else if probability ≥ 0.2 then "Low Probability of Passage"
  else "Very Low Probability of Passage"

/-- Severity rank of an interpretation label, used to state that the
interpretation is monotone in the probability. -/
def severityRank (label : String) : ℕ :=
  if label = "Very High Probability of Passage" then 4
  else if label = "High Probability of Passage" then 3
  else if label = "Moderate Probability of Passage" then 2
  else if label = "Low Probability of Passage" then 1
  else 0

/-- Spec-side step 1: the baseline weight of each factor name, as a map
semantics (`none` for a name that is not a factor). -/
def specBaselineWeight (k : String) : Option ℚ :=
  if k = "governing_party_support" then some 0.30
  else if k = "opposition_support" then some 0.15
  else if k = "public_opinion" then some 0.10
  else if k = "committee_approval" then some 0.20
  else if k = "fiscal_impact" then some 0.10
  else if k = "urgency_factor" then some 0.05
  else if k = "previous_similar_bills" then some 0.05
  else if k = "media_coverage" then some 0.05
  else none

/-- Spec-side step 2: the system-type override (presidential sets
governing_party_support and opposition_support to 0.25; monarchy sets
governing_party_support to 0.25 and public_opinion to 0.15). -/
def specOverriddenWeight (cs : CountrySystem) (k : String) : Option ℚ :=
  if cs.system_type = "presidential" then
    if k = "governing_party_support" then some 0.25
    else if k = "opposition_support" then some 0.25
    else specBaselineWeight k
  else if cs.system_type = "monarchy" then
    if k = "governing_party_support" then some 0.25
    else if k = "public_opinion" then some 0.15
    else specBaselineWeight k
  else specBaselineWeight k

/-- Spec-side step 3: if and only if the legislature is bicameral, every
weight so far is multiplied by 0.7 and the two chamber factors appear with
weight 0.15 each. -/
def specDerivedWeight (cs : CountrySystem) (k : String) : Option ℚ :=
  if cs.legislature_type = "bicameral" then
    if k = "upper_house_support" ∨ k = "lower_house_support" then some 0.15
    else (specOverriddenWeight cs k).map (fun w => 0.7 * w)
  else specOverriddenWeight cs k

/-- The factors the scoring loop actually includes: the sub-list of the
weight map whose names are also keys of the factor-score map. -/
def includedWeights (weights factors : List (String × ℚ)) : List (String × ℚ) :=
  weights.filter (fun p => (lookupFactor factors p.1).isSome)

/-- Closed form of one scoring-loop step sequence: folding from any
accumulator adds the weighted sum of the included factors and appends one
breakdown entry per included factor, in weight-map order. -/
theorem scoreLoop_foldl (factors weights : List (String × ℚ))
    (init : ℚ × List (String × BreakdownEntry)) :
    weights.foldl
      (fun acc p =>
        match lookupFactor factors p.1 with
        | some s => (acc.1 + s * p.2, acc.2 ++ [(p.1, ⟨s, p.2, s * p.2⟩)])
        | none => acc)
      init
    = (init.1 + ((includedWeights weights factors).map
          (fun p => (lookupFactor factors p.1).getD 0 * p.2)).sum,
       init.2 ++ (includedWeights weights factors).map
          (fun p => (p.1, ⟨(lookupFactor factors p.1).getD 0, p.2,
            (lookupFactor factors p.1).getD 0 * p.2⟩))) := by
  induction weights generalizing init with
  | nil => simp [includedWeights]
  | cons a rest ih =>
    cases hl : lookupFactor factors a.1 with
    | none =>
      simp only [List.foldl_cons, hl, ih, includedWeights, List.filter_cons]
      simp [hl]
    | some s =>
      simp only [List.foldl_cons, hl, ih, includedWeights, List.filter_cons]
      simp [hl, add_assoc]

/-- The two scoring loops in closed form. -/
theorem scoreLoop_eq (weights factors : List (String × ℚ)) :
    scoreLoop weights factors
    = (((includedWeights weights factors).map
          (fun p => (lookupFactor factors p.1).getD 0 * p.2)).sum,
       (includedWeights weights factors).map
          (fun p => (p.1, ⟨(lookupFactor factors p.1).getD 0, p.2,
            (lookupFactor factors p.1).getD 0 * p.2⟩))) := by
  have h := scoreLoop_foldl factors weights (0, [])
  simpa [scoreLoop] using h

/-- C7: the weighted sum and the breakdown range exactly over the factor
names present in both the weight map and the factor-score map: the
breakdown lists exactly one entry per such factor (in weight-map order),
the total is the sum of score times weight over exactly those factors, and
dropping the absent factors from the weight map changes nothing (absent
factors are skipped, not scored as zero). -/
theorem C7_sum_and_breakdown_over_common_keys (weights factors : List (String × ℚ)) :
    (scoreLoop weights factors).2.map Prod.fst
      = (weights.map Prod.fst).filter (fun k => (lookupFactor factors k).isSome) ∧
    (scoreLoop weights factors).1
      = ((includedWeights weights factors).map
          (fun p => (lookupFactor factors p.1).getD 0 * p.2)).sum ∧
    scoreLoop weights factors = scoreLoop (includedWeights weights factors) factors := by
  refine ⟨?_, ?_, ?_⟩
  · rw [scoreLoop_eq]
    simp only [includedWeights]
    induction weights with
    | nil => simp
    | cons a rest ih =>
      by_cases h : (lookupFactor factors a.1).isSome <;>
        simp [List.filter_cons, h, ih]
  · rw [scoreLoop_eq]
  · rw [scoreLoop_eq, scoreLoop_eq]
    have hidem : includedWeights (includedWeights weights factors) factors
        = includedWeights weights factors := by
      simp [includedWeights, List.filter_filter]
    rw [hidem]

/-- C4: the probability returned by either calculator always lies in
[0, 1], even for adversarial factor scores outside [0, 1]. -/
theorem C4_probability_clamped (registry : List (String × CountrySystem))
    (country : String) (weights factors : List (String × ℚ)) (p : ℚ)
    (b : List (String × BreakdownEntry))
    (h : calculate_probability registry country factors = some (p, b)) :
    (0 ≤ p ∧ p ≤ 1) ∧
    (0 ≤ (flat_calculate_probability weights factors).1 ∧
      (flat_calculate_probability weights factors).1 ≤ 1) := by
  have clamp_bounds : ∀ t : ℚ, 0 ≤ max 0 (min 1 t) ∧ max 0 (min 1 t) ≤ 1 := by
    intro t
    exact ⟨le_max_left 0 (min 1 t), max_le (by norm_num) (min_le_left 1 t)⟩
  refine ⟨?_, clamp_bounds _⟩
  revert h
  unfold calculate_probability
  cases hcb : calculate_base_weights registry country with
  | none => intro h; cases h
  | some bw =>
    cases hgs : get_country_system registry country with
    | none => intro h; cases h
    | some cs =>
      intro h
      rw [Option.some_inj, Prod.mk.injEq] at h
      rw [← h.1]
      exact clamp_bounds _

/-- C3: for a country name not present in the registry, the enhanced
calculator returns the explicit "no result" value (the Python pair
`(None, None)`, modelled as `none`) instead of raising. -/
theorem C3_missing_country_returns_none (registry : List (String × CountrySystem))
    (country : String) (factors : List (String × ℚ))
    (h : get_country_system registry country = none) :
    calculate_probability registry country factors = none := by
  simp [calculate_probability, calculate_base_weights, h]

/-- Witness for C3 at the empty registry. -/
theorem C3_missing_country_returns_none_witness :
    get_country_system [] "Atlantis" = none ∧
    calculate_probability [] "Atlantis" [] = none :=
  ⟨rfl, C3_missing_country_returns_none [] "Atlantis" [] rfl⟩

/-- Witness for C4 at a concrete monarchy country and score map. -/
theorem C4_probability_clamped_witness :
    ((0 : ℚ) ≤ 3/40 ∧ (3/40 : ℚ) ≤ 1) ∧
    (0 ≤ (flat_calculate_probability [] []).1 ∧
      (flat_calculate_probability [] []).1 ≤ 1) :=
  C4_probability_clamped [("Oz", ⟨"unicameral", "monarchy"⟩)] "Oz" [] [("public_opinion", 1)]
    (3/40) [("public_opinion", ⟨1, 3/20, 3/20⟩)] (by
      simp [calculate_probability, calculate_base_weights, get_country_system,
        baseWeightsOf, baselineWeights, setEntry, scoreLoop, lookupFactor, List.find?]
      norm_num)

/-- C6: the interpreter buckets are inclusive lower bounds with the
highest matching bucket winning, the 0.8 boundary is inclusive while
0.79999 falls in the next bucket down, and the label severity is monotone
non-decreasing in the probability. -/
theorem C6_interpretation_buckets (p q : ℚ) (hpq : p ≤ q) :
    severityRank (get_interpretation p) ≤ severityRank (get_interpretation q) ∧
    get_interpretation 0.8 = "Very High Probability of Passage" ∧
    get_interpretation 0.79999 = "High Probability of Passage" ∧
    (get_interpretation p = "Very High Probability of Passage" ↔ 0.8 ≤ p) ∧
    (get_interpretation p = "High Probability of Passage" ↔ 0.6 ≤ p ∧ p < 0.8) ∧
    (get_interpretation p = "Moderate Probability of Passage" ↔ 0.4 ≤ p ∧ p < 0.6) ∧
    (get_interpretation p = "Low Probability of Passage" ↔ 0.2 ≤ p ∧ p < 0.4) ∧
    (get_interpretation p = "Very Low Probability of Passage" ↔ p < 0.2) := by
  refine ⟨?_, ?_, ?_, ?_, ?_, ?_, ?_, ?_⟩
  · unfold get_interpretation
    split_ifs <;> simp [severityRank] <;> linarith
  · unfold get_interpretation
    norm_num
  · unfold get_interpretation
    norm_num
  all_goals unfold get_interpretation
  all_goals split_ifs <;> push_neg at * <;> simp <;>
    first
      | linarith
      | (constructor <;> linarith)
      | (rintro ⟨h2, h3⟩; linarith)
      | (intro h2; linarith)

/-- Witness for C6, monotonicity projected at the endpoints 0 and 1. -/
theorem C6_interpretation_buckets_witness :
    severityRank (get_interpretation 0) ≤ severityRank (get_interpretation 1) :=
  (C6_interpretation_buckets 0 1 (by norm_num)).1

/-- C9: the interpreter is total and behaves on out-of-range input as if
the probability were clamped to [0, 1] first; above 1 it yields the
"Very High" label and below 0 the "Very Low" label. -/
theorem C9_interpretation_clamps (p : ℚ) :
    get_interpretation p = get_interpretation (max 0 (min 1 p)) ∧
    (1 < p → get_interpretation p = "Very High Probability of Passage") ∧
    (p < 0 → get_interpretation p = "Very Low Probability of Passage") := by
  refine ⟨?_, ?_, ?_⟩
  · rcases le_or_lt p 0 with h0 | h0
    · rw [min_eq_right (le_trans h0 (by norm_num)), max_eq_left h0]
      unfold get_interpretation
      split_ifs <;> first | rfl | linarith
    · rcases le_or_lt p 1 with h1 | h1
      · rw [min_eq_right h1, max_eq_right (le_of_lt h0)]
      · rw [min_eq_left (le_of_lt h1), max_eq_right (by norm_num : (0:ℚ) ≤ 1)]
        unfold get_interpretation
        split_ifs <;> first | rfl | linarith
  · intro h
    unfold get_interpretation
    split_ifs <;> first | rfl | linarith
  · intro h
    unfold get_interpretation
    split_ifs <;> first | rfl | linarith

/-- Witness for C9: the out-of-range inputs 2 and -1. -/
theorem C9_interpretation_clamps_witness :
    get_interpretation 2 = "Very High Probability of Passage" ∧
    get_interpretation (-1) = "Very Low Probability of Passage" :=
  ⟨(C9_interpretation_clamps 2).2.1 (by norm_num),
   (C9_interpretation_clamps (-1)).2.2 (by norm_num)⟩

/-- Unfolding lemma for `lookupFactor` on a non-empty association list. -/
theorem lookupFactor_cons (a : String × ℚ) (t : List (String × ℚ)) (k : String) :
    lookupFactor (a :: t) k = if k = a.1 then some a.2 else lookupFactor t k := by
  by_cases h : k = a.1
  · simp [lookupFactor, List.find?_cons, h]
  · have h2 : (a.1 == k) = false :=
      beq_eq_false_iff_ne.mpr (fun hh => h hh.symm)
    simp [lookupFactor, List.find?_cons, h, h2]

/-- `lookupFactor` on the empty association list. -/
theorem lookupFactor_nil (k : String) : lookupFactor [] k = none := rfl

/-- C1: for every country descriptor the derived weight vector follows the
spec pipeline — baseline map, then the presidential or monarchy override,
then (iff bicameral) scaling by 0.7 plus the two chamber weights — and in
particular a bicameral presidential descriptor yields
governing_party_support = opposition_support = 0.175 and chamber weights
0.15 each. -/
theorem C1_weight_pipeline (cs : CountrySystem) :
    (∀ k, lookupFactor (baseWeightsOf cs) k = specDerivedWeight cs k) ∧
    lookupFactor (baseWeightsOf ⟨"bicameral", "presidential"⟩)
      "governing_party_support" = some 0.175 ∧
    lookupFactor (baseWeightsOf ⟨"bicameral", "presidential"⟩)
      "opposition_support" = some 0.175 ∧
    lookupFactor (baseWeightsOf ⟨"bicameral", "presidential"⟩)
      "upper_house_support" = some 0.15 ∧
    lookupFactor (baseWeightsOf ⟨"bicameral", "presidential"⟩)
      "lower_house_support" = some 0.15 := by
  refine ⟨?_, ?_, ?_, ?_, ?_⟩
  · intro k
    by_cases hk1 : k = "governing_party_support"
    · subst hk1
      simp [specDerivedWeight, specOverriddenWeight, specBaselineWeight,
        baseWeightsOf, baselineWeights, setEntry]
      split_ifs <;> simp [lookupFactor_cons, lookupFactor_nil, mul_comm]
    by_cases hk2 : k = "opposition_support"
    · subst hk2
      simp [specDerivedWeight, specOverriddenWeight, specBaselineWeight,
        baseWeightsOf, baselineWeights, setEntry]
      split_ifs <;> simp [lookupFactor_cons, lookupFactor_nil, mul_comm]
    by_cases hk3 : k = "public_opinion"
    · subst hk3
      simp [specDerivedWeight, specOverriddenWeight, specBaselineWeight,
        baseWeightsOf, baselineWeights, setEntry]
      split_ifs <;> simp [lookupFactor_cons, lookupFactor_nil, mul_comm]
    by_cases hk4 : k = "committee_approval"
    · subst hk4
      simp [specDerivedWeight, specOverriddenWeight, specBaselineWeight,
        baseWeightsOf, baselineWeights, setEntry]
      split_ifs <;> simp [lookupFactor_cons, lookupFactor_nil, mul_comm]
    by_cases hk5 : k = "fiscal_impact"
    · subst hk5
      simp [specDerivedWeight, specOverriddenWeight, specBaselineWeight,
        baseWeightsOf, baselineWeights, setEntry]
      split_ifs <;> simp [lookupFactor_cons, lookupFactor_nil, mul_comm]
    by_cases hk6 : k = "urgency_factor"
    · subst hk6
      simp [specDerivedWeight, specOverriddenWeight, specBaselineWeight,
        baseWeightsOf, baselineWeights, setEntry]
      split_ifs <;> simp [lookupFactor_cons, lookupFactor_nil, mul_comm]
    by_cases hk7 : k = "previous_similar_bills"
    · subst hk7
      simp [specDerivedWeight, specOverriddenWeight, specBaselineWeight,
        baseWeightsOf, baselineWeights, setEntry]
      split_ifs <;> simp [lookupFactor_cons, lookupFactor_nil, mul_comm]
    by_cases hk8 : k = "media_coverage"
    · subst hk8
      simp [specDerivedWeight, specOverriddenWeight, specBaselineWeight,
        baseWeightsOf, baselineWeights, setEntry]
      split_ifs <;> simp [lookupFactor_cons, lookupFactor_nil, mul_comm]
    by_cases hk9 : k = "upper_house_support"
    · subst hk9
      simp [specDerivedWeight, specOverriddenWeight, specBaselineWeight,
        baseWeightsOf, baselineWeights, setEntry]
      split_ifs <;> simp [lookupFactor_cons, lookupFactor_nil, mul_comm]
    by_cases hk10 : k = "lower_house_support"
    · subst hk10
      simp [specDerivedWeight, specOverriddenWeight, specBaselineWeight,
        baseWeightsOf, baselineWeights, setEntry]
      split_ifs <;> simp [lookupFactor_cons, lookupFactor_nil, mul_comm]
    · simp [specDerivedWeight, specOverriddenWeight, specBaselineWeight,
        baseWeightsOf, baselineWeights, setEntry,
        hk1, hk2, hk3, hk4, hk5, hk6, hk7, hk8, hk9, hk10]
      split_ifs <;>
        simp [lookupFactor_cons, lookupFactor_nil,
          hk1, hk2, hk3, hk4, hk5, hk6, hk7, hk8, hk9, hk10]
  all_goals
    simp [baseWeightsOf, baselineWeights, setEntry, lookupFactor, List.find?_cons] <;>
      norm_num

/-- `isPrefOf` decides the list-prefix relation. -/
theorem isPrefOf_iff (n : List Char) :
    ∀ h : List Char, isPrefOf n h = true ↔ ∃ t, h = n ++ t := by
  induction n with
  | nil => intro h; simp [isPrefOf]
  | cons a as ih =>
    intro h
    cases h with
    | nil => simp [isPrefOf]
    | cons b bs =>
      simp only [isPrefOf, Bool.and_eq_true, beq_iff_eq, ih, List.cons_append,
        List.cons.injEq]
      constructor
      · rintro ⟨hab, t, ht⟩
        exact ⟨t, hab.symm, ht⟩
      · rintro ⟨t, hba, ht⟩
        exact ⟨hba.symm, t, ht⟩

/-- `containsSub` decides the substring relation `HasSub`. -/
theorem containsSub_iff (n : List Char) :
    ∀ h : List Char, containsSub n h = true ↔ HasSub n h := by
  intro h
  induction h with
  | nil =>
    simp only [containsSub, isPrefOf_iff, HasSub]
    constructor
    · rintro ⟨t, ht⟩
      exact ⟨[], t, by simpa using ht⟩
    · rintro ⟨p, q, hpq⟩
      rw [eq_comm, List.append_eq_nil, List.append_eq_nil] at hpq
      exact ⟨[], by simp [hpq.1.2, hpq.2]⟩
  | cons c t ih =>
    simp only [containsSub, Bool.or_eq_true, isPrefOf_iff, ih, HasSub]
    constructor
    · rintro (⟨t2, ht⟩ | ⟨p, q, hpq⟩)
      · exact ⟨[], t2, by simpa using ht⟩
      · exact ⟨c :: p, q, by simp [hpq]⟩
    · rintro ⟨p, q, hpq⟩
      cases p with
      | nil =>
        left
        exact ⟨q, by simpa using hpq⟩
      | cons x xs =>
        right
        simp only [List.cons_append] at hpq
        exact ⟨xs, q, (List.cons.injEq .. ▸ hpq).2⟩

/-- The Python substring test agrees with the abstract substring relation. -/
theorem pyIn_iff (needle hay : String) :
    pyIn needle hay = true ↔ HasSub needle.data hay.data :=
  containsSub_iff needle.data hay.data

/-- C5: classification is by case-insensitive substring matching in the
fixed priority order of the code, with absent fields defaulting to the
empty string; the function is total, so classification never fails. -/
theorem C5_substring_classification (st gt : Option String) :
    (classify_legislature_type st = "bicameral" ↔
      HasSub "bicameral".data ((st.getD "").toLower).data) ∧
    (classify_legislature_type st = "unicameral" ↔
      (¬ HasSub "bicameral".data ((st.getD "").toLower).data ∧
        HasSub "unicameral".data ((st.getD "").toLower).data)) ∧
    (classify_legislature_type st = "unknown" ↔
      (¬ HasSub "bicameral".data ((st.getD "").toLower).data ∧
        ¬ HasSub "unicameral".data ((st.getD "").toLower).data)) ∧
    (classify_system_type gt = "parliamentary" ↔
      HasSub "parliamentary".data ((gt.getD "").toLower).data) ∧
    (classify_system_type gt = "presidential" ↔
      (¬ HasSub "parliamentary".data ((gt.getD "").toLower).data ∧
        HasSub "presidential".data ((gt.getD "").toLower).data)) ∧
    (classify_system_type gt = "monarchy" ↔
      (¬ HasSub "parliamentary".data ((gt.getD "").toLower).data ∧
        ¬ HasSub "presidential".data ((gt.getD "").toLower).data ∧
        HasSub "monarchy".data ((gt.getD "").toLower).data)) ∧
    (classify_system_type gt = "other" ↔
      (¬ HasSub "parliamentary".data ((gt.getD "").toLower).data ∧
        ¬ HasSub "presidential".data ((gt.getD "").toLower).data ∧
        ¬ HasSub "monarchy".data ((gt.getD "").toLower).data)) := by
  unfold classify_legislature_type classify_system_type
  dsimp only
  split_ifs <;> simp_all [pyIn_iff]

/-- C2 as written is false: with a monarchy country and a factor-score map
that omits the governing_party_support key, the code reads the score with
a default of 0, which is below 0.3, so the monarchy penalty fires even
though the key is absent: the probability is 0.075, not the unpenalized
clamped sum 0.15. -/
theorem C2_counterexample :
    lookupFactor [("public_opinion", 1)] "governing_party_support" = none ∧
    calculate_probability [("Oz", ⟨"unicameral", "monarchy"⟩)] "Oz" [("public_opinion", 1)]
      = some (0.075, [("public_opinion", ⟨1, 0.15, 0.15⟩)]) ∧
    max 0 (min 1 (scoreLoop (baseWeightsOf ⟨"unicameral", "monarchy"⟩)
      [("public_opinion", 1)]).1) = 0.15 ∧
    (0.075 : ℚ) ≠ 0.15 := by
  refine ⟨rfl, ?_, ?_, by norm_num⟩
  · simp [calculate_probability, calculate_base_weights, get_country_system,
      baseWeightsOf, baselineWeights, setEntry, scoreLoop, lookupFactor, List.find?]
    norm_num
  · simp [scoreLoop, baseWeightsOf, baselineWeights, setEntry, lookupFactor, List.find?]
    norm_num

/-- C2 amended: the monarchy penalty fires exactly when the
governing_party_support score read with default 0 is below 0.3 — in
particular also when the key is absent — and the probability equals the
clamped unpenalized weighted sum exactly when that default-0 read is at
least 0.3. -/
theorem C2_amended_monarchy_penalty (registry : List (String × CountrySystem))
    (country : String) (factors : List (String × ℚ)) (cs : CountrySystem)
    (h : get_country_system registry country = some cs)
    (hm : cs.system_type = "monarchy") :
    ((lookupFactor factors "governing_party_support").getD 0 < 0.3 →
      calculate_probability registry country factors
        = some (max 0 (min 1 ((scoreLoop (baseWeightsOf cs) factors).1 * 0.5)),
            (scoreLoop (baseWeightsOf cs) factors).2)) ∧
    (0.3 ≤ (lookupFactor factors "governing_party_support").getD 0 →
      calculate_probability registry country factors
        = some (max 0 (min 1 (scoreLoop (baseWeightsOf cs) factors).1),
            (scoreLoop (baseWeightsOf cs) factors).2)) := by
  unfold calculate_probability calculate_base_weights
  rw [h]
  simp only [Option.map_some, hm]
  constructor
  · intro hlt
    simp [hlt]
  · intro hge
    have hnl : ¬ (lookupFactor factors "governing_party_support").getD 0 < 0.3 :=
      not_lt.mpr hge
    simp [hnl]

/-- Witness for C2 amended: a monarchy country with a present low score
(penalty branch) evaluates to probability 0.0125. -/
theorem C2_amended_monarchy_penalty_witness :
    calculate_probability [("Oz", ⟨"unicameral", "monarchy"⟩)] "Oz"
      [("governing_party_support", 0.1)]
      = some (0.0125, [("governing_party_support", ⟨0.1, 0.25, 0.025⟩)]) := by
  have h := (C2_amended_monarchy_penalty [("Oz", ⟨"unicameral", "monarchy"⟩)] "Oz"
      [("governing_party_support", 0.1)] ⟨"unicameral", "monarchy"⟩
      (by simp [get_country_system]) rfl).1
    (by simp [lookupFactor, List.find?]; norm_num)
  rw [h]
  simp [scoreLoop, baseWeightsOf, baselineWeights, setEntry, lookupFactor, List.find?]
  norm_num

/-- C8 as written is false: the flat baseline calculator in `app.py`
applies no penalty rules at all; with governing_party_support = 0.1
(below 0.3) and committee_approval = 0.1 (below 0.2) the returned
probability is the plain clamped weighted sum 0.05, not a penalized
value. -/
theorem C8_counterexample :
    (flat_calculate_probability (legislativeSystemWeights false 0.30)
      [("governing_party_support", 0.1), ("committee_approval", 0.1)]).1 = 0.05 ∧
    (0.05 : ℚ) ≠ 0.05 * 0.5 ∧
    (0.05 : ℚ) ≠ 0.05 * 0.7 ∧
    (0.05 : ℚ) ≠ 0.05 * 0.5 * 0.7 := by
  refine ⟨?_, by norm_num, by norm_num, by norm_num⟩
  simp [flat_calculate_probability, legislativeSystemWeights, baselineWeights,
    scoreLoop, lookupFactor, List.find?]
  norm_num

/-- C8 amended: the flat baseline calculator applies no multiplicative
penalties: even when the governing_party_support score is below 0.3 and
the committee_approval score is below 0.2, the probability is exactly the
clamp of the weighted sum over the factors present in both maps. -/
theorem C8_amended_no_flat_penalties (weights factors : List (String × ℚ))
    (h1 : (lookupFactor factors "governing_party_support").getD 0 < 0.3)
    (h2 : (lookupFactor factors "committee_approval").getD 0 < 0.2) :
    (flat_calculate_probability weights factors).1
      = max 0 (min 1 (((includedWeights weights factors).map
          (fun p => (lookupFactor factors p.1).getD 0 * p.2)).sum)) := by
  simp [flat_calculate_probability, scoreLoop_eq]

/-- Witness for C8 amended at the counterexample scores. -/
theorem C8_amended_no_flat_penalties_witness :
    (flat_calculate_probability (legislativeSystemWeights false 0.30)
      [("governing_party_support", 0.1), ("committee_approval", 0.1)]).1
      = max 0 (min 1 (((includedWeights (legislativeSystemWeights false 0.30)
          [("governing_party_support", 0.1), ("committee_approval", 0.1)]).map
          (fun p => (lookupFactor [("governing_party_support", 0.1),
            ("committee_approval", 0.1)] p.1).getD 0 * p.2)).sum)) :=
  C8_amended_no_flat_penalties _ _
    (by simp [lookupFactor, List.find?]; norm_num)
    (by simp [lookupFactor, List.find?]; norm_num)

/-- C10: for a country whose system type is parliamentary or other, the
country-aware calculator returns exactly the result of the flat
calculator run on a LegislativeSystem with default weights and
is_bicameral read off the legislature type. -/
theorem C10_enhanced_refines_flat (registry : List (String × CountrySystem))
    (country : String) (factors : List (String × ℚ)) (cs : CountrySystem)
    (h : get_country_system registry country = some cs)
    (hsys : cs.system_type = "parliamentary" ∨ cs.system_type = "other") :
    calculate_probability registry country factors
      = some (flat_calculate_probability
          (legislativeSystemWeights (cs.legislature_type == "bicameral") 0.30) factors) := by
  have h1 : ¬ cs.system_type = "presidential" := by
    rcases hsys with hs | hs <;> rw [hs] <;> simp
  have h2 : ¬ cs.system_type = "monarchy" := by
    rcases hsys with hs | hs <;> rw [hs] <;> simp
  have hw : baseWeightsOf cs
      = legislativeSystemWeights (cs.legislature_type == "bicameral") 0.30 := by
    by_cases hb : cs.legislature_type = "bicameral" <;>
      simp [baseWeightsOf, legislativeSystemWeights, baselineWeights, setEntry,
        h1, h2, hb]
  unfold calculate_probability calculate_base_weights
  rw [h]
  simp [flat_calculate_probability, h2, hw]

/-- Witness for C10 at a concrete unicameral parliamentary country. -/
theorem C10_enhanced_refines_flat_witness :
    calculate_probability [("Atlantis", ⟨"unicameral", "parliamentary"⟩)] "Atlantis"
      [("public_opinion", 0.5)]
      = some (flat_calculate_probability
          (legislativeSystemWeights (("unicameral" : String) == "bicameral") 0.30)
          [("public_opinion", 0.5)]) :=
  C10_enhanced_refines_flat _ _ _ ⟨"unicameral", "parliamentary"⟩ rfl (Or.inl rfl)

end LegCalc
